import Mathlib

/-!
Verification development for the OCR batch-processing repository
(`main.py`, Tesseract pipeline; `paddle_ocr.py`, PaddleOCR pipeline).

Shallow embedding conventions:
* Python exceptions are modelled by the `Pyres` sum type; external effects
  (image decoding + engine recognition, PDF rasterization, JSON dumping)
  are supplied as per-file oracles describing the outcome the external
  world produces for that file.
* The filesystem is modelled in two parts: the list of temporary raster
  file names currently present in the working directory, and an
  association list from output paths to written artifacts.
* Timestamps and the engine-version string are omitted from the embedded
  result records: they are wall-clock / environment readings that no claim
  mentions.
* Machine floats appear only in `ratio = max_size / max(w, h)` followed by
  `int(w * ratio)`; this is embedded as exact natural floor division
  `w * max_size / max w h`.
-/

set_option autoImplicit false
set_option synthInstance.maxSize 1024

namespace OCR

/-- Outcome of running a piece of Python code that may raise: either a
normal value or a raised exception carrying a message. -/
inductive Pyres (α : Type) where
  | exn (msg : String)
  | ok (val : α)
deriving DecidableEq

/-- Whether a fallible step returned normally. -/
def pyOk {α : Type} : Pyres α → Bool
  | Pyres.exn _ => false
  | Pyres.ok _ => true

/-- Outcome of the `json.dump` call inside `save_results`: the dump writes
the whole document, raises midway after `open(path, "w")` has already
truncated/created the file, or the `open` itself raises. -/
inductive DumpOutcome where
  | ok
  | failMidway
  | openFails
deriving DecidableEq

/-- Content found at an output path: a complete serialized payload, or the
truncated/partial remains of a dump that raised midway. -/
inductive Artifact (α : Type) where
  | full (data : α)
  | truncated
deriving DecidableEq

/-- The output directory contents: an association list from path to artifact. -/
abbrev OutFS (α : Type) := List (String × Artifact α)

/-- `open(path, "w")` followed by a write: last write wins at that path. -/
def setEntry {α : Type} (fs : OutFS α) (p : String) (a : Artifact α) : OutFS α :=
  (p, a) :: fs.filter (fun e => e.1 != p)

/-- Python `str.lower()` (ASCII case mapping, which is all the dispatcher
compares). -/
def pyLower (s : String) : String := String.mk (s.toList.map Char.toLower)

/-- Python `str.strip()`: drop leading and trailing whitespace. -/
def pyStrip (s : String) : String :=
  String.mk (((s.toList.dropWhile Char.isWhitespace).reverse.dropWhile Char.isWhitespace).reverse)

/-- Index of the last '.' in the character list, if any
(`p.rfind(extsep)` in CPython `os.path.splitext`). -/
def lastDotIdx (cs : List Char) : Option Nat :=
  (List.range cs.length).foldl (fun acc i => if cs.getD i ' ' = '.' then some i else acc) none

/-- The extension part of `os.path.splitext(name)` for a base name: the
suffix from the last dot, unless every character before that dot is a dot
(leading dots do not start an extension). -/
def splitextExt (name : String) : String :=
  match lastDotIdx name.toList with
  | none => ""
  | some k =>
      if (name.toList.take k).any (fun c => c != '.') then
        String.mk (name.toList.drop k)
      else ""

/-- The root part of `os.path.splitext(name)` for a base name. -/
def splitextStem (name : String) : String :=
  String.mk (name.toList.take (name.toList.length - (splitextExt name).toList.length))

/-- Where file-type dispatch sends a file. -/
inductive Route where
  | image
  | pdf
  | unsupported
deriving DecidableEq

/-- Image extensions accepted by `main.py` `process_single_file`
(note: no `.webp`). -/
def tessImageExts : List String := [".jpg", ".jpeg", ".png", ".bmp", ".tiff", ".gif"]

/-- Image extensions accepted by `paddle_ocr.py` `process_file`
(note: no `.gif`). -/
def paddleImageExts : List String := [".jpg", ".jpeg", ".png", ".bmp", ".tiff", ".webp"]

/-- Dispatch of `main.py` `process_single_file`: lower-cased extension
against the image tuple, then `.pdf`, else unsupported. -/
def tessRoute (name : String) : Route :=
  let ext := pyLower (splitextExt name)
  if ext ∈ tessImageExts then Route.image
  else if ext = ".pdf" then Route.pdf
  else Route.unsupported

/-- Dispatch of `paddle_ocr.py` `process_file`. -/
def paddleRoute (name : String) : Route :=
  let ext := pyLower (splitextExt name)
  if ext ∈ paddleImageExts then Route.image
  else if ext = ".pdf" then Route.pdf
  else Route.unsupported

/-- A raster image as the pipeline sees it: pixel dimensions and PIL mode. -/
structure ImgDesc where
  width : Nat
  height : Nat
  mode : String
deriving DecidableEq

/-- `PaddleOCRProcessor.resize_image` on the image's dimensions: when the
larger dimension exceeds `max_size`, scale both by `ratio = max_size /
max(width, height)` with `int` truncation; the Bool records whether a
`resized_` copy was written to disk. -/
def resize_image (img : ImgDesc) (max_size : Nat) : ImgDesc × Bool :=
  if max_size < max img.width img.height then
    ({ width := img.width * max_size / max img.width img.height,
       height := img.height * max_size / max img.width img.height,
       mode := img.mode }, true)
  else (img, false)

/-- The confidence entry `block[1][1]` of a raw engine block: absent
(`len(block[1]) <= 1`), a numeric value that `float(...)` converts, or a
value on which `float(...)` raises `ValueError`/`TypeError`. -/
inductive ConfEntry where
  | absent
  | num (q : ℚ)
  | malformed
deriving DecidableEq

/-- A raw block as returned by the PaddleOCR engine: `block[0]` is the
coordinate polygon, `block[1][0]` the recognized text (absent when
`len(block) <= 1` or `len(block[1]) = 0`), `block[1][1]` the confidence. -/
structure RawBlock where
  coords : List (ℚ × ℚ)
  textEntry : Option String
  conf : ConfEntry
deriving DecidableEq

/-- Raw engine output: `None`, or a list of page results each of which is
`None` or a list of raw blocks. -/
abbrev RawResult := Option (List (Option (List RawBlock)))

/-- A normalized text block appended to `text_blocks` in `process_image`. -/
structure TextBlock where
  block_id : Nat
  text : String
  confidence : ℚ
  coordinates : List (ℚ × ℚ)
deriving DecidableEq

/-- The per-block body of the `for idx, block in enumerate(page_result)`
loop: extract text (default `""`), confidence (`float(...)`, default
`0.0`) and coordinates; a raised conversion error skips the block. -/
def parseBlock (idx : Nat) (b : RawBlock) : Option TextBlock :=
  let text := b.textEntry.getD ""
  match b.conf with
  | ConfEntry.malformed => none
  | ConfEntry.absent => some { block_id := idx, text := text, confidence := 0, coordinates := b.coords }
  | ConfEntry.num q => some { block_id := idx, text := text, confidence := q, coordinates := b.coords }

/-- The block loop over one `page_result`, starting at enumeration index
`idx`: returns the `text_blocks` entries and the `full_text_parts`
entries contributed (a part is appended only when `text.strip()` is
non-empty). -/
def collectBlocks : Nat → List RawBlock → List TextBlock × List String
  | _, [] => ([], [])
  | idx, b :: bs =>
    let rest := collectBlocks (idx + 1) bs
    match parseBlock idx b with
    | none => rest
    | some tb =>
        (tb :: rest.1, if pyStrip tb.text != "" then tb.text :: rest.2 else rest.2)

/-- The `for page_idx, page_result in enumerate(result)` loop: a `None`
page contributes nothing; the block index restarts at 0 for each page. -/
def collectPages : List (Option (List RawBlock)) → List TextBlock × List String
  | [] => ([], [])
  | none :: ps => collectPages ps
  | some bs :: ps =>
    let cur := collectBlocks 0 bs
    let rest := collectPages ps
    (cur.1 ++ rest.1, cur.2 ++ rest.2)

/-- Whether a raw block's confidence entry, when numeric, lies in [0,1]
(absent and malformed entries are unconstrained). -/
def rawConfOk (b : RawBlock) : Bool :=
  match b.conf with
  | ConfEntry.num q => decide (0 ≤ q ∧ q ≤ 1)
  | _ => true

/-- Whether every numeric confidence in a raw engine output lies in [0,1]. -/
def rawResultConfOk (raw : RawResult) : Bool :=
  (raw.getD []).all (fun po => (po.getD []).all rawConfOk)

/-- The dictionary built by `PaddleOCRProcessor.process_image` (timestamp
omitted; `page_number`/`filetype` are overwritten by `process_pdf` for
PDF pages, so `page_number` is an `Option`). -/
structure PaddleResult where
  filename : String
  filetype : String
  text_blocks : List TextBlock
  full_text : String
  page_number : Option Nat
  image_size : List Nat
  image_mode : String
  total_blocks : Nat
deriving DecidableEq

/-- `PaddleOCRProcessor.process_image`: resize (possibly materializing a
`resized_` temp file), run the engine, normalize blocks, remove the
resized copy, build the result. A raised engine exception is caught and
yields `none` — on that path the resized copy is NOT removed. `temps` is
the list of temporary raster files on disk. -/
def paddleProcessImage (name : String) (img : ImgDesc) (predictRes : Pyres RawResult)
    (temps : List String) : Option PaddleResult × List String :=
  let created := (resize_image img 4000).2
  let temps1 := if created then ("resized_" ++ name) :: temps else temps
  match predictRes with
  | Pyres.exn _ => (none, temps1)
  | Pyres.ok raw =>
    let collected := collectPages (raw.getD [])
    let temps2 := if created then temps1.erase ("resized_" ++ name) else temps1
    (some { filename := name, filetype := "image",
            text_blocks := collected.1,
            full_text := String.intercalate "\n" collected.2,
            page_number := none,
            image_size := [img.width, img.height],
            image_mode := img.mode,
            total_blocks := collected.1.length }, temps2)

/-- One rasterized PDF page: the dimensions of the saved JPEG and the
engine's outcome on it. -/
structure PaddlePage where
  img : ImgDesc
  predict : Pyres RawResult
deriving DecidableEq

/-- The temporary file name `f"temp_page_{i}_{os.getpid()}.jpg"`. -/
def tempPageName (i pid : Nat) : String :=
  "temp_page_" ++ toString i ++ "_" ++ toString pid ++ ".jpg"

/-- The per-page loop of `PaddleOCRProcessor.process_pdf` starting at page
index `i`: save the page to a temp JPEG, run `process_image` on it, keep
the result only when it is truthy (a failed page is dropped with no
placeholder), then remove the temp JPEG. -/
def paddlePdfLoop (pid : Nat) : Nat → List PaddlePage → List String → List PaddleResult × List String
  | _, [], temps => ([], temps)
  | i, p :: ps, temps =>
    let tn := tempPageName (i + 1) pid
    let step := paddleProcessImage tn p.img p.predict (tn :: temps)
    let temps2 := step.2.erase tn
    let rest := paddlePdfLoop pid (i + 1) ps temps2
    match step.1 with
    | some r => ({ r with page_number := some (i + 1), filetype := "pdf_page" } :: rest.1, rest.2)
    | none => (rest.1, rest.2)

/-- `PaddleOCRProcessor.process_pdf`: rasterization failure yields `none`
(whole-file failure); otherwise the per-page loop runs over all pages. -/
def paddleProcessPdf (pid : Nat) (convert : Pyres (List PaddlePage))
    (temps : List String) : Option (List PaddleResult) × List String :=
  match convert with
  | Pyres.exn _ => (none, temps)
  | Pyres.ok pages =>
    let r := paddlePdfLoop pid 0 pages temps
    (some r.1, r.2)

/-- What `process_file` hands to `save_results` in `paddle_ocr.py`: a
single dictionary for an image, a list of per-page dictionaries for a PDF. -/
inductive PaddlePayload where
  | single (r : PaddleResult)
  | pages (rs : List PaddleResult)
deriving DecidableEq

/-- Python truthiness of `if not data`: a result dictionary is truthy, a
page list is falsy exactly when empty. -/
def paddlePayloadEmpty : PaddlePayload → Bool
  | PaddlePayload.single _ => false
  | PaddlePayload.pages rs => rs.isEmpty

/-- Output path of `PaddleOCRProcessor.save_results` (the path separator
of `os.path.join` is abstracted as "/"). -/
def paddleOutputPath (input_filename : String) : String :=
  "OUTPUT\\Processed Purchases_2" ++ "/" ++ splitextStem input_filename ++ ".json"

/-- `PaddleOCRProcessor.save_results`: falsy data returns `False`
untouched; otherwise `open(path, "w")` truncates the path and
`json.dump` either writes the whole payload or raises midway, leaving the
truncated partial write in place; the exception is caught and `False`
returned. -/
def paddleSaveResults (dump : DumpOutcome) (data : PaddlePayload) (input_filename : String)
    (out : OutFS PaddlePayload) : Bool × OutFS PaddlePayload :=
  if paddlePayloadEmpty data then (false, out)
  else
    match dump with
    | DumpOutcome.openFails => (false, out)
    | DumpOutcome.ok => (true, setEntry out (paddleOutputPath input_filename) (Artifact.full data))
    | DumpOutcome.failMidway => (false, setEntry out (paddleOutputPath input_filename) Artifact.truncated)

/-- One directory entry for the PaddleOCR batch: its base name and the
oracles for the external effects its processing would trigger. -/
structure PaddleFileDesc where
  name : String
  img : ImgDesc
  predict : Pyres RawResult
  convert : Pyres (List PaddlePage)
  dump : DumpOutcome
deriving DecidableEq

/-- `PaddleOCRProcessor.process_file`: dispatch on the lower-cased
extension; unsupported extensions return `False` immediately; a falsy
result (`None`, or an empty page list) returns `False` without saving;
otherwise the outcome is that of `save_results`. -/
def paddleProcessFile (pid : Nat) (f : PaddleFileDesc) (temps : List String)
    (out : OutFS PaddlePayload) : Bool × List String × OutFS PaddlePayload :=
  match paddleRoute f.name with
  | Route.unsupported => (false, temps, out)
  | Route.image =>
    let step := paddleProcessImage f.name f.img f.predict temps
    match step.1 with
    | none => (false, step.2, out)
    | some r =>
      let s := paddleSaveResults f.dump (PaddlePayload.single r) f.name out
      (s.1, step.2, s.2)
  | Route.pdf =>
    let step := paddleProcessPdf pid f.convert temps
    match step.1 with
    | none => (false, step.2, out)
    | some rs =>
      if rs.isEmpty then (false, step.2, out)
      else
        let s := paddleSaveResults f.dump (PaddlePayload.pages rs) f.name out
        (s.1, step.2, s.2)

/-- The directory loop of `paddle_ocr.py` `main`: every regular file is
handed to `process_file`; a `True` return increments `files_processed`, a
`False` return increments `files_failed` (unsupported files, recognition
failures and write failures all land in this one counter). Returns
`(files_processed, files_failed, temps, out)`. -/
def paddleMainLoop (pid : Nat) : List PaddleFileDesc → List String → OutFS PaddlePayload →
    Nat × Nat × List String × OutFS PaddlePayload
  | [], temps, out => (0, 0, temps, out)
  | f :: fs, temps, out =>
    let step := paddleProcessFile pid f temps out
    let rest := paddleMainLoop pid fs step.2.1 step.2.2
    if step.1 then (rest.1 + 1, rest.2.1, rest.2.2)
    else (rest.1, rest.2.1 + 1, rest.2.2)

/-- The dictionary built by `OCRProcessor.process_image` /
`OCRProcessor.process_pdf` in `main.py` (timestamp and the
engine-version metadata omitted; the image dictionary has no
`page_number` key, modelled as `none`). -/
structure TessResult where
  filename : String
  filetype : String
  page_number : Option Nat
  text : String
deriving DecidableEq

/-- `OCRProcessor.process_image`: `Image.open` + `image_to_string` as one
fallible external step; any raised exception is caught and `None`
returned. -/
def tessProcessImage (name : String) (chain : Pyres String) : Option TessResult :=
  match chain with
  | Pyres.exn _ => none
  | Pyres.ok t => some { filename := name, filetype := "image", page_number := none, text := t }

/-- One rasterized page of a PDF in `main.py`: the outcome of
`image_to_string` on it. -/
structure TessPage where
  ocr : Pyres String
deriving DecidableEq

/-- The page loop of `OCRProcessor.process_pdf` starting at index `i`:
there is no per-page handler, so a raised recognition error on any page
propagates to the function-level `except` and the whole file yields
`None`. -/
def tessPdfLoop (name : String) : Nat → List TessPage → Option (List TessResult)
  | _, [] => some []
  | i, p :: ps =>
    match p.ocr with
    | Pyres.exn _ => none
    | Pyres.ok t =>
      match tessPdfLoop name (i + 1) ps with
      | none => none
      | some rs =>
          some ({ filename := name, filetype := "pdf", page_number := some (i + 1), text := t } :: rs)

/-- `OCRProcessor.process_pdf`: rasterization failure (or any page
failure, via the loop) is caught and yields `None`. -/
def tessProcessPdf (name : String) (convert : Pyres (List TessPage)) : Option (List TessResult) :=
  match convert with
  | Pyres.exn _ => none
  | Pyres.ok pages => tessPdfLoop name 0 pages

/-- What `process_single_file` returns to the directory loop in
`main.py`: one dictionary for an image, a list for a PDF. -/
inductive TessPayload where
  | single (r : TessResult)
  | pages (rs : List TessResult)
deriving DecidableEq

/-- Python truthiness of `if not data` in `OCRProcessor.save_results`. -/
def tessPayloadEmpty : TessPayload → Bool
  | TessPayload.single _ => false
  | TessPayload.pages rs => rs.isEmpty

/-- Output path of `OCRProcessor.save_results` (path separator of
`os.path.join` abstracted as "/"). -/
def tessOutputPath (input_filename : String) : String :=
  "OUTPUT\\Processed Purchases" ++ "/" ++ splitextStem input_filename ++ ".json"

/-- `OCRProcessor.save_results`: same shape as the PaddleOCR variant —
`open(path, "w")` truncates in place, a midway dump failure leaves the
truncated artifact, and every failure is caught and reported as `False`. -/
def tessSaveResults (dump : DumpOutcome) (data : TessPayload) (input_filename : String)
    (out : OutFS TessPayload) : Bool × OutFS TessPayload :=
  if tessPayloadEmpty data then (false, out)
  else
    match dump with
    | DumpOutcome.openFails => (false, out)
    | DumpOutcome.ok => (true, setEntry out (tessOutputPath input_filename) (Artifact.full data))
    | DumpOutcome.failMidway => (false, setEntry out (tessOutputPath input_filename) Artifact.truncated)

/-- One directory entry for the `main.py` batch with its effect oracles. -/
structure TessFileDesc where
  name : String
  imageChain : Pyres String
  pdfConvert : Pyres (List TessPage)
  dump : DumpOutcome
deriving DecidableEq

/-- `OCRProcessor.process_single_file`: dispatch by lower-cased extension;
unsupported types yield `None`. -/
def tessProcessSingleFile (f : TessFileDesc) : Option TessPayload :=
  match tessRoute f.name with
  | Route.image => (tessProcessImage f.name f.imageChain).map TessPayload.single
  | Route.pdf => (tessProcessPdf f.name f.pdfConvert).map TessPayload.pages
  | Route.unsupported => none

/-- `OCRProcessor.process_directory`: each regular file is processed; a
`None` result or a failed save increments `skipped_files`, a successful
save increments `processed_files`; there is one shared counter for
unsupported, failed and write-failed files. Returns
`(processed_files, skipped_files, out)`. -/
def tessProcessDirectory : List TessFileDesc → OutFS TessPayload →
    Nat × Nat × OutFS TessPayload
  | [], out => (0, 0, out)
  | f :: fs, out =>
    match tessProcessSingleFile f with
    | none =>
      let rest := tessProcessDirectory fs out
      (rest.1, rest.2.1 + 1, rest.2.2)
    | some payload =>
      let s := tessSaveResults f.dump payload f.name out
      let rest := tessProcessDirectory fs s.2
      if s.1 then (rest.1 + 1, rest.2.1, rest.2.2)
      else (rest.1, rest.2.1 + 1, rest.2.2)

/-- The constant assigned to `input_path` at the top of every iteration of
the `while True` loop in `main.py` `main`. -/
def mainInputPath : String := "DATA\\Processed Purchases"

/-- Whether the `while True` driver loop in `main.py` has exited. -/
inductive LoopStatus where
  | running
  | exited
deriving DecidableEq

/-- One iteration of the driver loop: `input_path` is re-assigned the
hardcoded constant, then the loop breaks exactly when
`input_path.lower() == 'quit'`; every other branch (process the batch, or
report a missing path and `continue`) returns to the loop head. -/
def mainLoopStep : LoopStatus → LoopStatus
  | LoopStatus.exited => LoopStatus.exited
  | LoopStatus.running =>
      if pyLower mainInputPath == "quit" then LoopStatus.exited else LoopStatus.running

/-- Driver-loop status after `n` iterations. -/
def mainLoopState : Nat → LoopStatus
  | 0 => LoopStatus.running
  | n + 1 => mainLoopStep (mainLoopState n)

/-! ### Helper lemmas -/

theorem collectBlocks_parts (bs : List RawBlock) : ∀ idx : Nat,
    (collectBlocks idx bs).2 =
      ((collectBlocks idx bs).1.map TextBlock.text).filter (fun t => pyStrip t != "") := by
  induction bs with
  | nil => intro idx; rfl
  | cons b bs ih =>
    intro idx
    simp only [collectBlocks]
    cases hp : parseBlock idx b with
    | none => exact ih (idx + 1)
    | some tb =>
      cases ht : (pyStrip tb.text != "") <;>
        simp [List.filter_cons, ht, ih (idx + 1)]

theorem collectPages_parts (ps : List (Option (List RawBlock))) :
    (collectPages ps).2 =
      ((collectPages ps).1.map TextBlock.text).filter (fun t => pyStrip t != "") := by
  induction ps with
  | nil => rfl
  | cons p ps ih =>
    cases p with
    | none => simpa [collectPages] using ih
    | some bs =>
      simp [collectPages, List.filter_append, ih, collectBlocks_parts bs 0]

theorem collectBlocks_conf (bs : List RawBlock) : ∀ idx : Nat,
    bs.all rawConfOk = true →
    ∀ tb ∈ (collectBlocks idx bs).1, 0 ≤ tb.confidence ∧ tb.confidence ≤ 1 := by
  induction bs with
  | nil => intro idx _ tb htb; simp [collectBlocks] at htb
  | cons b bs ih =>
    intro idx hall tb htb
    rw [List.all_cons, Bool.and_eq_true] at hall
    simp only [collectBlocks] at htb
    cases hc : b.conf with
    | malformed =>
      rw [parseBlock, hc] at htb
      exact ih (idx + 1) hall.2 tb htb
    | absent =>
      rw [parseBlock, hc] at htb
      rcases List.mem_cons.mp htb with h | h
      · subst h; exact ⟨le_refl 0, zero_le_one⟩
      · exact ih (idx + 1) hall.2 tb h
    | num q =>
      rw [parseBlock, hc] at htb
      rcases List.mem_cons.mp htb with h | h
      · subst h
        have hb := hall.1
        rw [rawConfOk, hc] at hb
        exact of_decide_eq_true hb
      · exact ih (idx + 1) hall.2 tb h

theorem collectPages_conf (ps : List (Option (List RawBlock))) :
    ps.all (fun po => (po.getD []).all rawConfOk) = true →
    ∀ tb ∈ (collectPages ps).1, 0 ≤ tb.confidence ∧ tb.confidence ≤ 1 := by
  induction ps with
  | nil => intro _ tb htb; simp [collectPages] at htb
  | cons p ps ih =>
    intro hall tb htb
    rw [List.all_cons, Bool.and_eq_true] at hall
    cases p with
    | none => exact ih hall.2 tb htb
    | some bs =>
      simp only [collectPages] at htb
      rcases List.mem_append.mp htb with h | h
      · exact collectBlocks_conf bs 0 (by simpa using hall.1) tb h
      · exact ih hall.2 tb h

theorem resize_max_eq (w h L : Nat) (hL : L < max w h) :
    max (w * L / max w h) (h * L / max w h) = L := by
  rcases le_total w h with hwh | hwh
  · rw [max_eq_right hwh] at hL ⊢
    have hh : 0 < h := lt_of_le_of_lt (Nat.zero_le L) hL
    have h2 : h * L / h = L := Nat.mul_div_cancel_left L hh
    have h1 : w * L / h ≤ L := by
      calc w * L / h ≤ h * L / h := Nat.div_le_div_right (Nat.mul_le_mul_right L hwh)
      _ = L := h2
    rw [h2, max_eq_right h1]
  · rw [max_eq_left hwh] at hL ⊢
    have hw : 0 < w := lt_of_le_of_lt (Nat.zero_le L) hL
    have h1 : w * L / w = L := Nat.mul_div_cancel_left L hw
    have h2 : h * L / w ≤ L := by
      calc h * L / w ≤ w * L / w := Nat.div_le_div_right (Nat.mul_le_mul_right L hwh)
      _ = L := h1
    rw [h1, max_eq_left h2]

theorem tessPdfLoop_ok (name : String) (pages : List TessPage) : ∀ i : Nat,
    pages.all (fun p => pyOk p.ocr) = true →
    ∃ rs, tessPdfLoop name i pages = some rs ∧ rs.length = pages.length ∧
      rs.map TessResult.page_number = (List.range' (i + 1) pages.length).map some := by
  induction pages with
  | nil => intro i _; exact ⟨[], rfl, rfl, rfl⟩
  | cons p ps ih =>
    intro i hall
    rw [List.all_cons, Bool.and_eq_true] at hall
    cases ho : p.ocr with
    | exn e => exact absurd hall.1 (by rw [ho]; simp [pyOk])
    | ok t =>
      obtain ⟨rs, hrs, hlen, hmap⟩ := ih (i + 1) hall.2
      refine ⟨_, by rw [tessPdfLoop, ho, hrs], by simp [hlen], ?_⟩
      rw [List.length_cons, List.range'_succ, List.map_cons, List.map_cons, hmap]

theorem tessPdfLoop_exn (name : String) (pages : List TessPage) (p : TessPage) (e : String)
    (hmem : p ∈ pages) (he : p.ocr = Pyres.exn e) : ∀ i : Nat,
    tessPdfLoop name i pages = none := by
  induction pages with
  | nil => cases hmem
  | cons q ps ih =>
    intro i
    rcases List.mem_cons.mp hmem with h | h
    · subst h; rw [tessPdfLoop, he]
    · cases hq : q.ocr with
      | exn e2 => rw [tessPdfLoop, hq]
      | ok t => rw [tessPdfLoop, hq, ih h (i + 1)]

theorem paddleProcessImage_ok_temps (name : String) (img : ImgDesc) (raw : RawResult)
    (temps : List String) :
    (paddleProcessImage name img (Pyres.ok raw) temps).2 = temps := by
  cases hc : (resize_image img 4000).2 <;>
    simp [paddleProcessImage, hc, List.erase_cons_head]

theorem paddlePdfLoop_ok (pid : Nat) (pages : List PaddlePage) : ∀ (i : Nat) (temps : List String),
    pages.all (fun p => pyOk p.predict) = true →
    (paddlePdfLoop pid i pages temps).1.length = pages.length ∧
      (paddlePdfLoop pid i pages temps).1.map PaddleResult.page_number =
        (List.range' (i + 1) pages.length).map some ∧
      (paddlePdfLoop pid i pages temps).2 = temps := by
  induction pages with
  | nil => intro i temps _; exact ⟨rfl, rfl, rfl⟩
  | cons p ps ih =>
    intro i temps hall
    rw [List.all_cons, Bool.and_eq_true] at hall
    cases hp : p.predict with
    | exn e => exact absurd hall.1 (by rw [hp]; simp [pyOk])
    | ok raw =>
      have htemps : (paddleProcessImage (tempPageName (i + 1) pid) p.img p.predict
          (tempPageName (i + 1) pid :: temps)).2 = tempPageName (i + 1) pid :: temps := by
        rw [hp]; exact paddleProcessImage_ok_temps _ _ _ _
      have hsome : (paddleProcessImage (tempPageName (i + 1) pid) p.img p.predict
          (tempPageName (i + 1) pid :: temps)).1.isSome = true := by
        rw [hp]; cases hc : (resize_image p.img 4000).2 <;> simp [paddleProcessImage, hc]
      obtain ⟨r, hr⟩ := Option.isSome_iff_exists.mp hsome
      obtain ⟨ihlen, ihmap, ihtemps⟩ := ih (i + 1) temps hall.2
      have herase : (paddleProcessImage (tempPageName (i + 1) pid) p.img p.predict
          (tempPageName (i + 1) pid :: temps)).2.erase (tempPageName (i + 1) pid) = temps := by
        rw [htemps]; exact List.erase_cons_head _ _
      constructor
      · simp only [paddlePdfLoop, herase, hr]
        simp [ihlen]
      constructor
      · simp only [paddlePdfLoop, herase, hr]
        rw [List.length_cons, List.range'_succ, List.map_cons, List.map_cons]
        simp [ihmap]
      · simp only [paddlePdfLoop, herase, hr]
        simp [ihtemps]

theorem tessDirectory_counts (files : List TessFileDesc) : ∀ out : OutFS TessPayload,
    (tessProcessDirectory files out).1 + (tessProcessDirectory files out).2.1 = files.length := by
  induction files with
  | nil => intro out; rfl
  | cons f fs ih =>
    intro out
    cases h : tessProcessSingleFile f with
    | none =>
      simp only [tessProcessDirectory, h]
      have := ih out
      simp only [List.length_cons]
      omega
    | some payload =>
      simp only [tessProcessDirectory, h]
      have hrec := ih (tessSaveResults f.dump payload f.name out).2
      cases hs : (tessSaveResults f.dump payload f.name out).1
      · rw [if_neg (by simp)]
        simp only [List.length_cons]
        omega
      · rw [if_pos rfl]
        simp only [List.length_cons]
        omega

theorem tessDirectory_skip (f : TessFileDesc) (rest : List TessFileDesc) (out : OutFS TessPayload)
    (h : tessProcessSingleFile f = none) :
    tessProcessDirectory (f :: rest) out =
      ((tessProcessDirectory rest out).1, (tessProcessDirectory rest out).2.1 + 1,
        (tessProcessDirectory rest out).2.2) := by
  simp only [tessProcessDirectory, h]

theorem paddleMainLoop_counts (pid : Nat) (files : List PaddleFileDesc) :
    ∀ (temps : List String) (out : OutFS PaddlePayload),
    (paddleMainLoop pid files temps out).1 + (paddleMainLoop pid files temps out).2.1 =
      files.length := by
  induction files with
  | nil => intro temps out; rfl
  | cons f fs ih =>
    intro temps out
    simp only [paddleMainLoop]
    have hrec := ih (paddleProcessFile pid f temps out).2.1 (paddleProcessFile pid f temps out).2.2
    cases hs : (paddleProcessFile pid f temps out).1
    · rw [if_neg (by simp)]
      simp only [List.length_cons]
      omega
    · rw [if_pos rfl]
      simp only [List.length_cons]
      omega

/-! ### Claims -/

/-- C10: the driver loop in `main.py` `main` never terminates: `input_path`
is re-assigned the hardcoded constant on every iteration, the lower-cased
constant never equals `'quit'`, so the `break` is unreachable and the loop
body (batch run or path-missing branch) re-executes indefinitely. -/
theorem c10_infinite_loop :
    (∀ n : Nat, mainLoopState n = LoopStatus.running) ∧
    (pyLower mainInputPath == "quit") = false := by
  have hstep : mainLoopStep LoopStatus.running = LoopStatus.running := by decide
  refine ⟨fun n => ?_, by decide⟩
  induction n with
  | zero => rfl
  | succ k ih =>
    show mainLoopStep (mainLoopState k) = LoopStatus.running
    rw [ih]
    exact hstep

/-- C4: `resize_image` with limit `L`: if the larger dimension exceeds `L`,
both dimensions are scaled by `L / max(w, h)` (with `int` truncation) and
the larger resulting dimension equals `L` exactly; otherwise the image
passes through unchanged with no resized copy materialized. -/
theorem c4_resize : ∀ (img : ImgDesc) (L : Nat),
    (L < max img.width img.height →
       resize_image img L =
         ({ width := img.width * L / max img.width img.height,
            height := img.height * L / max img.width img.height,
            mode := img.mode }, true) ∧
       max ((resize_image img L).1.width) ((resize_image img L).1.height) = L) ∧
    (max img.width img.height ≤ L → resize_image img L = (img, false)) := by
  intro img L
  constructor
  · intro hgt
    have he : resize_image img L =
        ({ width := img.width * L / max img.width img.height,
           height := img.height * L / max img.width img.height,
           mode := img.mode }, true) := by
      rw [resize_image, if_pos hgt]
    refine ⟨he, ?_⟩
    rw [he]
    exact resize_max_eq img.width img.height L hgt
  · intro hle
    rw [resize_image, if_neg (not_lt.mpr hle)]

/-- C4 witness: an 8000x2000 page with limit 4000 is scaled to 4000x1000;
a 300x200 page is unchanged. -/
theorem c4_witness :
    (resize_image ⟨8000, 2000, "RGB"⟩ 4000 =
       ({ width := 8000 * 4000 / max 8000 2000,
          height := 2000 * 4000 / max 8000 2000, mode := "RGB" }, true) ∧
     max ((resize_image ⟨8000, 2000, "RGB"⟩ 4000).1.width)
       ((resize_image ⟨8000, 2000, "RGB"⟩ 4000).1.height) = 4000) ∧
    resize_image ⟨300, 200, "RGB"⟩ 4000 = (⟨300, 200, "RGB"⟩, false) :=
  ⟨(c4_resize ⟨8000, 2000, "RGB"⟩ 4000).1 (by decide),
   (c4_resize ⟨300, 200, "RGB"⟩ 4000).2 (by decide)⟩

/-- C7 counterexample: the claim routes every listed extension in both
pipelines, but `main.py` treats `.webp` as unsupported (its tuple lacks
it) and `paddle_ocr.py` treats `.gif` as unsupported. -/
theorem c7_counterexample :
    tessRoute "photo.webp" = Route.unsupported ∧
    paddleRoute "anim.gif" = Route.unsupported := by decide

theorem routeIfAux (e : String) (exts : List String) (hnp : ".pdf" ∉ exts) :
    ((if e ∈ exts then Route.image else if e = ".pdf" then Route.pdf else Route.unsupported) =
        Route.image ↔ e ∈ exts) ∧
    ((if e ∈ exts then Route.image else if e = ".pdf" then Route.pdf else Route.unsupported) =
        Route.pdf ↔ e = ".pdf") := by
  by_cases hm : e ∈ exts <;> by_cases hp : e = ".pdf"
  · exact absurd (hp ▸ hm) hnp
  · simp [hm, hp]
  · simp [hm, hp]
    exact hnp
  · simp [hm, hp]

/-- C7 (amended): routing is by lower-cased extension; `main.py` sends
exactly `.jpg/.jpeg/.png/.bmp/.tiff/.gif` to image processing (no
`.webp`), `paddle_ocr.py` exactly `.jpg/.jpeg/.png/.bmp/.tiff/.webp` (no
`.gif`); in both, exactly `.pdf` is routed to PDF processing. -/
theorem c7_amended : ∀ (name e : String), e = pyLower (splitextExt name) →
    ((tessRoute name = Route.image ↔ e ∈ tessImageExts) ∧
     (tessRoute name = Route.pdf ↔ e = ".pdf") ∧
     (paddleRoute name = Route.image ↔ e ∈ paddleImageExts) ∧
     (paddleRoute name = Route.pdf ↔ e = ".pdf")) := by
  intro name e he
  subst he
  have ht : tessRoute name =
      (if pyLower (splitextExt name) ∈ tessImageExts then Route.image
       else if pyLower (splitextExt name) = ".pdf" then Route.pdf else Route.unsupported) := rfl
  have hp : paddleRoute name =
      (if pyLower (splitextExt name) ∈ paddleImageExts then Route.image
       else if pyLower (splitextExt name) = ".pdf" then Route.pdf else Route.unsupported) := rfl
  rw [ht, hp]
  obtain ⟨h1, h2⟩ := routeIfAux (pyLower (splitextExt name)) tessImageExts (by decide)
  obtain ⟨h3, h4⟩ := routeIfAux (pyLower (splitextExt name)) paddleImageExts (by decide)
  exact ⟨h1, h2, h3, h4⟩

/-- C7 witness: instantiated at `photo.webp` (lower-cased extension
`.webp`). -/
theorem c7_witness :
    (tessRoute "photo.webp" = Route.image ↔ ".webp" ∈ tessImageExts) ∧
    (tessRoute "photo.webp" = Route.pdf ↔ ".webp" = ".pdf") ∧
    (paddleRoute "photo.webp" = Route.image ↔ ".webp" ∈ paddleImageExts) ∧
    (paddleRoute "photo.webp" = Route.pdf ↔ ".webp" = ".pdf") :=
  c7_amended "photo.webp" ".webp" (by decide)

/-- C8 counterexample: with a 5000x3000 image a `resized_` copy is
materialized; when the recognition call then raises, the handler returns
`None` without removing the copy, so a temporary raster file is left
behind on the exception exit path. -/
theorem c8_counterexample :
    paddleProcessImage "big.png" ⟨5000, 3000, "RGB"⟩ (Pyres.exn "engine crash") [] =
      (none, ["resized_big.png"]) := by decide

/-- C8 (amended): temporary raster artifacts are removed on the paths the
code covers — when recognition returns normally, `process_image` removes
any resized copy, and `process_pdf` removes every per-page temp JPEG when
all pages recognize — but an exception raised during recognition leaves
the resized copy behind (see the counterexample). -/
theorem c8_amended :
    (∀ (name : String) (img : ImgDesc) (raw : RawResult) (temps : List String),
       (paddleProcessImage name img (Pyres.ok raw) temps).2 = temps) ∧
    (∀ (pid : Nat) (pages : List PaddlePage) (temps : List String),
       pages.all (fun p => pyOk p.predict) = true →
       (paddleProcessPdf pid (Pyres.ok pages) temps).2 = temps) := by
  refine ⟨paddleProcessImage_ok_temps, fun pid pages temps hall => ?_⟩
  exact (paddlePdfLoop_ok pid pages 0 temps hall).2.2

/-- A well-formed raw engine block with text "hello" and confidence 1.0. -/
def blkA : RawBlock := ⟨[(0, 0), (1, 0), (1, 1), (0, 1)], some "hello", ConfEntry.num 1⟩

/-- A raw block whose text is whitespace-only. -/
def blkBlank : RawBlock := ⟨[], some "   ", ConfEntry.num 0⟩

/-- A raw block with no confidence entry. -/
def blkB : RawBlock := ⟨[], some "world", ConfEntry.absent⟩

/-- Two PDF pages that both recognize successfully. -/
def c1OkPages : List PaddlePage :=
  [⟨⟨100, 100, "RGB"⟩, Pyres.ok (some [some [blkA]])⟩,
   ⟨⟨50, 60, "L"⟩, Pyres.ok (some [some [blkB]])⟩]

/-- Two rasterized pages where page 1's recognition raises and page 2's
succeeds. -/
def c1FailPages : List PaddlePage :=
  [⟨⟨100, 100, "RGB"⟩, Pyres.exn "recognition boom"⟩,
   ⟨⟨100, 100, "RGB"⟩, Pyres.ok (some [some [blkA]])⟩]

/-- Two Tesseract PDF pages that both recognize successfully. -/
def c1TessPages : List TessPage := [⟨Pyres.ok "page one"⟩, ⟨Pyres.ok "page two"⟩]

/-- C1 counterexample: a 2-page PDF whose rasterization succeeds but whose
first page fails recognition produces an artifact with exactly one
`DocumentResult`, with `page_number` sequence `[2]` (not `1..2`): the
PaddleOCR `process_pdf` silently omits the failed page. -/
theorem c1_counterexample :
    c1FailPages.length = 2 ∧
    ((paddleProcessPdf 7 (Pyres.ok c1FailPages) []).1).isSome = true ∧
    ((paddleProcessPdf 7 (Pyres.ok c1FailPages) []).1.getD []).map PaddleResult.page_number =
      [some 2] := by decide

/-- C1 (amended): an image file yields exactly one result; an N-page PDF
whose rasterization succeeds and ALL of whose pages recognize
successfully yields exactly N results with `page_number` 1..N in order,
in both pipelines; a PaddleOCR page whose recognition fails is silently
dropped (see the counterexample). -/
theorem c1_amended :
    (∀ name t : String,
       tessProcessImage name (Pyres.ok t) =
         some { filename := name, filetype := "image", page_number := none, text := t }) ∧
    (∀ (name : String) (pages : List TessPage),
       pages.all (fun p => pyOk p.ocr) = true →
       ∃ rs, tessProcessPdf name (Pyres.ok pages) = some rs ∧ rs.length = pages.length ∧
         rs.map TessResult.page_number = (List.range' 1 pages.length).map some) ∧
    (∀ (pid : Nat) (pages : List PaddlePage) (temps : List String),
       pages.all (fun p => pyOk p.predict) = true →
       ∃ rs, (paddleProcessPdf pid (Pyres.ok pages) temps).1 = some rs ∧
         rs.length = pages.length ∧
         rs.map PaddleResult.page_number = (List.range' 1 pages.length).map some) := by
  refine ⟨fun name t => rfl, fun name pages hall => ?_, fun pid pages temps hall => ?_⟩
  · obtain ⟨rs, hrs, hlen, hmap⟩ := tessPdfLoop_ok name pages 0 hall
    exact ⟨rs, hrs, hlen, hmap⟩
  · obtain ⟨hlen, hmap, _⟩ := paddlePdfLoop_ok pid pages 0 temps hall
    exact ⟨(paddlePdfLoop pid 0 pages temps).1, rfl, hlen, hmap⟩

/-- C1 witness: both amended page-sequence statements instantiated at
concrete 2-page PDFs whose pages all recognize. -/
theorem c1_witness :
    (∃ rs, tessProcessPdf "doc.pdf" (Pyres.ok c1TessPages) = some rs ∧
       rs.length = c1TessPages.length ∧
       rs.map TessResult.page_number = (List.range' 1 c1TessPages.length).map some) ∧
    (∃ rs, (paddleProcessPdf 9 (Pyres.ok c1OkPages) []).1 = some rs ∧
       rs.length = c1OkPages.length ∧
       rs.map PaddleResult.page_number = (List.range' 1 c1OkPages.length).map some) :=
  ⟨c1_amended.2.1 "doc.pdf" c1TessPages (by decide),
   c1_amended.2.2 9 c1OkPages [] (by decide)⟩

/-- C8 witness: the cleanup statements instantiated at a concrete image
whose recognition succeeds and at the concrete all-pages-succeed PDF. -/
theorem c8_witness :
    ((paddleProcessImage "big.png" ⟨5000, 3000, "RGB"⟩ (Pyres.ok (some [some [blkA]]))
        ["other.tmp"]).2 = ["other.tmp"]) ∧
    ((paddleProcessPdf 9 (Pyres.ok c1OkPages) []).2 = []) :=
  ⟨c8_amended.1 "big.png" ⟨5000, 3000, "RGB"⟩ (some [some [blkA]]) ["other.tmp"],
   c8_amended.2 9 c1OkPages [] (by decide)⟩

/-- C2: in every `DocumentResult` produced by `process_image`, `full_text`
is the newline-join of exactly the non-blank block texts of its
`text_blocks`, in block order. -/
theorem c2_full_text : ∀ (name : String) (img : ImgDesc) (predictRes : Pyres RawResult)
    (temps : List String) (r : PaddleResult),
    (paddleProcessImage name img predictRes temps).1 = some r →
    r.full_text =
      String.intercalate "\n" ((r.text_blocks.map TextBlock.text).filter (fun t => pyStrip t != "")) := by
  intro name img predictRes temps r h
  cases predictRes with
  | exn e => simp [paddleProcessImage] at h
  | ok raw =>
    simp only [paddleProcessImage, Option.some.injEq] at h
    subst h
    simp [collectPages_parts]

/-- The result `process_image` produces for the page
`[blkA, blkBlank, blkB]`: the whitespace-only block is kept in
`text_blocks` but omitted from `full_text`. -/
def c2Res : PaddleResult :=
  { filename := "y.png", filetype := "image",
    text_blocks := [⟨0, "hello", 1, [(0, 0), (1, 0), (1, 1), (0, 1)]⟩,
                    ⟨1, "   ", 0, []⟩, ⟨2, "world", 0, []⟩],
    full_text := "hello\nworld", page_number := none,
    image_size := [10, 10], image_mode := "L", total_blocks := 3 }

/-- C2 witness: the join rule instantiated at a concrete three-block page
containing a whitespace-only block. -/
theorem c2_witness :
    c2Res.full_text =
      String.intercalate "\n"
        ((c2Res.text_blocks.map TextBlock.text).filter (fun t => pyStrip t != "")) :=
  c2_full_text "y.png" ⟨10, 10, "L"⟩ (Pyres.ok (some [some [blkA, blkBlank, blkB]])) [] c2Res
    (by decide)

/-- C9 counterexample: a raw block carrying the numeric confidence 2.0 is
passed through unchanged by the normalizer, so the produced
`DocumentResult` contains a block confidence outside [0,1]. -/
theorem c9_counterexample :
    ((paddleProcessImage "x.png" ⟨100, 100, "RGB"⟩
        (Pyres.ok (some [some [⟨[], some "x", ConfEntry.num 2⟩]])) []).1.map
      (fun r => r.text_blocks.map TextBlock.confidence)) = some [2] ∧
    ¬ ((2 : ℚ) ≤ 1) := by decide

/-- C9 (amended): a missing confidence entry is normalized to 0.0 and a
malformed one drops its block, so all block confidences of the produced
result lie in [0,1] whenever every numeric confidence the engine supplies
does; numeric values are passed through without clamping. -/
theorem c9_amended : ∀ (name : String) (img : ImgDesc) (raw : RawResult)
    (temps : List String) (r : PaddleResult),
    (paddleProcessImage name img (Pyres.ok raw) temps).1 = some r →
    rawResultConfOk raw = true →
    ∀ tb ∈ r.text_blocks, 0 ≤ tb.confidence ∧ tb.confidence ≤ 1 := by
  intro name img raw temps r h hraw
  simp only [paddleProcessImage, Option.some.injEq] at h
  subst h
  exact collectPages_conf _ hraw

/-- The result `process_image` produces for the page `[blkA, blkB]`
(confidences 1.0 and missing-normalized-to-0). -/
def c9Res : PaddleResult :=
  { filename := "z.png", filetype := "image",
    text_blocks := [⟨0, "hello", 1, [(0, 0), (1, 0), (1, 1), (0, 1)]⟩, ⟨1, "world", 0, []⟩],
    full_text := "hello\nworld", page_number := none,
    image_size := [20, 20], image_mode := "RGB", total_blocks := 2 }

/-- C9 witness: the bound instantiated at a concrete in-range input and at
the first block of its result. -/
theorem c9_witness :
    0 ≤ (⟨0, "hello", 1, [(0, 0), (1, 0), (1, 1), (0, 1)]⟩ : TextBlock).confidence ∧
    (⟨0, "hello", 1, [(0, 0), (1, 0), (1, 1), (0, 1)]⟩ : TextBlock).confidence ≤ 1 :=
  c9_amended "z.png" ⟨20, 20, "RGB"⟩ (some [some [blkA, blkB]]) [] c9Res (by decide) (by decide)
    ⟨0, "hello", 1, [(0, 0), (1, 0), (1, 1), (0, 1)]⟩ (by decide)

/-- C3: per-file failure isolation in the batch drivers. Every file ends in
exactly one counter (processed + skipped/failed = number of files, so no
file aborts the batch), and a file whose image decode/recognition chain
raises, whose PDF rasterization raises, or any of whose pages' recognition
raises, is counted once as skipped/failed while the remaining files are
processed exactly as they would be alone. -/
theorem c3_isolation :
    (∀ (files : List TessFileDesc) (out : OutFS TessPayload),
       (tessProcessDirectory files out).1 + (tessProcessDirectory files out).2.1 =
         files.length) ∧
    (∀ (f : TessFileDesc) (rest : List TessFileDesc) (out : OutFS TessPayload) (e : String),
       tessRoute f.name = Route.image → f.imageChain = Pyres.exn e →
       tessProcessDirectory (f :: rest) out =
         ((tessProcessDirectory rest out).1, (tessProcessDirectory rest out).2.1 + 1,
          (tessProcessDirectory rest out).2.2)) ∧
    (∀ (f : TessFileDesc) (rest : List TessFileDesc) (out : OutFS TessPayload) (e : String),
       tessRoute f.name = Route.pdf → f.pdfConvert = Pyres.exn e →
       tessProcessDirectory (f :: rest) out =
         ((tessProcessDirectory rest out).1, (tessProcessDirectory rest out).2.1 + 1,
          (tessProcessDirectory rest out).2.2)) ∧
    (∀ (f : TessFileDesc) (rest : List TessFileDesc) (out : OutFS TessPayload)
       (pages : List TessPage) (p : TessPage) (e : String),
       tessRoute f.name = Route.pdf → f.pdfConvert = Pyres.ok pages → p ∈ pages →
       p.ocr = Pyres.exn e →
       tessProcessDirectory (f :: rest) out =
         ((tessProcessDirectory rest out).1, (tessProcessDirectory rest out).2.1 + 1,
          (tessProcessDirectory rest out).2.2)) ∧
    (∀ (pid : Nat) (files : List PaddleFileDesc) (temps : List String)
       (out : OutFS PaddlePayload),
       (paddleMainLoop pid files temps out).1 + (paddleMainLoop pid files temps out).2.1 =
         files.length) := by
  refine ⟨tessDirectory_counts, ?_, ?_, ?_, paddleMainLoop_counts⟩
  · intro f rest out e hroute hchain
    apply tessDirectory_skip
    simp [tessProcessSingleFile, hroute, tessProcessImage, hchain]
  · intro f rest out e hroute hconv
    apply tessDirectory_skip
    simp [tessProcessSingleFile, hroute, tessProcessPdf, hconv]
  · intro f rest out pages p e hroute hconv hmem hocr
    apply tessDirectory_skip
    simp [tessProcessSingleFile, hroute, tessProcessPdf, hconv,
      tessPdfLoop_exn f.name pages p e hmem hocr 0]

/-- A Tesseract batch entry whose image decode raises. -/
def c3Bad : TessFileDesc := ⟨"bad.png", Pyres.exn "decode error", Pyres.ok [], DumpOutcome.ok⟩

/-- A Tesseract batch entry that processes cleanly. -/
def c3Good : TessFileDesc := ⟨"good.png", Pyres.ok "hello", Pyres.ok [], DumpOutcome.ok⟩

/-- C3 witness: a raising file followed by a good one — counts cover both
files and the bad file only adds one skip. -/
theorem c3_witness :
    ((tessProcessDirectory [c3Bad, c3Good] []).1 +
       (tessProcessDirectory [c3Bad, c3Good] []).2.1 = 2) ∧
    tessProcessDirectory (c3Bad :: [c3Good]) [] =
      ((tessProcessDirectory [c3Good] []).1, (tessProcessDirectory [c3Good] []).2.1 + 1,
       (tessProcessDirectory [c3Good] []).2.2) :=
  ⟨c3_isolation.1 [c3Bad, c3Good] [],
   c3_isolation.2.1 c3Bad [c3Good] [] "decode error" (by decide) rfl⟩

/-- C5 counterexample: a dump that raises midway leaves a truncated
artifact at the output path (the `open(path, "w")` already truncated it
in place), contradicting "no partial or truncated artifact remains". -/
theorem c5_counterexample :
    tessSaveResults DumpOutcome.failMidway (TessPayload.single ⟨"a.png", "image", none, "hi"⟩)
        "a.png" [] =
      (false, [("OUTPUT\\Processed Purchases" ++ "/" ++ "a" ++ ".json", Artifact.truncated)]) := by
  decide

/-- C5 (amended): a write failure is reported via a `False` return and the
file is counted as skipped/failed even when recognition succeeded; but
writing is not all-or-nothing — a midway dump failure leaves a truncated
artifact at the output path (the write is in place, with no temp-file
rename). -/
theorem c5_amended :
    (∀ (data : TessPayload) (name : String) (out : OutFS TessPayload),
       (tessSaveResults DumpOutcome.failMidway data name out).1 = false ∧
       (tessSaveResults DumpOutcome.openFails data name out).1 = false) ∧
    (∀ (data : PaddlePayload) (name : String) (out : OutFS PaddlePayload),
       (paddleSaveResults DumpOutcome.failMidway data name out).1 = false ∧
       (paddleSaveResults DumpOutcome.openFails data name out).1 = false) ∧
    (∀ (data : TessPayload) (name : String) (out : OutFS TessPayload),
       tessPayloadEmpty data = false →
       (tessSaveResults DumpOutcome.failMidway data name out).2 =
         setEntry out (tessOutputPath name) Artifact.truncated) ∧
    (∀ (f : TessFileDesc) (rest : List TessFileDesc) (out : OutFS TessPayload) (t : String),
       tessRoute f.name = Route.image → f.imageChain = Pyres.ok t →
       f.dump = DumpOutcome.failMidway →
       tessProcessDirectory (f :: rest) out =
         ((tessProcessDirectory rest (setEntry out (tessOutputPath f.name) Artifact.truncated)).1,
          (tessProcessDirectory rest
              (setEntry out (tessOutputPath f.name) Artifact.truncated)).2.1 + 1,
          (tessProcessDirectory rest
              (setEntry out (tessOutputPath f.name) Artifact.truncated)).2.2)) := by
  refine ⟨?_, ?_, ?_, ?_⟩
  · intro data name out
    cases h : tessPayloadEmpty data <;> simp [tessSaveResults, h]
  · intro data name out
    cases h : paddlePayloadEmpty data <;> simp [paddleSaveResults, h]
  · intro data name out h
    simp [tessSaveResults, h]
  · intro f rest out t hroute hchain hdump
    have hsingle : tessProcessSingleFile f =
        some (TessPayload.single ⟨f.name, "image", none, t⟩) := by
      simp [tessProcessSingleFile, hroute, tessProcessImage, hchain]
    have hsave : tessSaveResults f.dump (TessPayload.single ⟨f.name, "image", none, t⟩) f.name out =
        (false, setEntry out (tessOutputPath f.name) Artifact.truncated) := by
      rw [hdump]
      simp [tessSaveResults, tessPayloadEmpty]
    simp only [tessProcessDirectory, hsingle, hsave]
    rw [if_neg (by simp)]

/-- A Tesseract batch entry whose recognition succeeds but whose dump
raises midway. -/
def c5File : TessFileDesc := ⟨"a.png", Pyres.ok "hi", Pyres.ok [], DumpOutcome.failMidway⟩

/-- C5 witness: the amended statements instantiated at a concrete
successfully-recognized file whose write fails. -/
theorem c5_witness :
    ((tessSaveResults DumpOutcome.failMidway (TessPayload.single ⟨"b.png", "image", none, "x"⟩)
        "b.png" []).2 = setEntry [] (tessOutputPath "b.png") Artifact.truncated) ∧
    tessProcessDirectory (c5File :: []) [] =
      ((tessProcessDirectory [] (setEntry [] (tessOutputPath c5File.name) Artifact.truncated)).1,
       (tessProcessDirectory []
           (setEntry [] (tessOutputPath c5File.name) Artifact.truncated)).2.1 + 1,
       (tessProcessDirectory []
           (setEntry [] (tessOutputPath c5File.name) Artifact.truncated)).2.2) :=
  ⟨c5_amended.2.2.1 (TessPayload.single ⟨"b.png", "image", none, "x"⟩) "b.png" [] rfl,
   c5_amended.2.2.2 c5File [] [] "hi" (by decide) rfl rfl⟩

/-- An unsupported-extension entry for the PaddleOCR batch. -/
def c6Txt : PaddleFileDesc := ⟨"notes.txt", ⟨10, 10, "L"⟩, Pyres.ok none, Pyres.ok [], DumpOutcome.ok⟩

/-- A PaddleOCR batch entry whose recognition raises. -/
def c6Crash : PaddleFileDesc :=
  ⟨"bad.png", ⟨10, 10, "L"⟩, Pyres.exn "engine crash", Pyres.ok [], DumpOutcome.ok⟩

/-- C6 counterexample: a `.txt` file is not counted separately from
failures — `process_file` returns `False` for it, so the batch increments
the same `files_failed` counter as for a genuine recognition failure, and
the two batch outcomes are identical. -/
theorem c6_counterexample :
    paddleRoute c6Txt.name = Route.unsupported ∧
    pyOk c6Crash.predict = false ∧
    paddleMainLoop 7 [c6Txt] [] [] = (0, 1, [], []) ∧
    paddleMainLoop 7 [c6Crash] [] [] = (0, 1, [], []) := by decide

/-- C6 (amended): an unsupported-extension file is skipped (no recognition
runs), produces no artifact (the output store is untouched), and the batch
continues with the remaining files; but it is counted in the same
skipped/failed counter as failures in both drivers — there is no separate
skip count. -/
theorem c6_amended :
    (∀ (pid : Nat) (f : PaddleFileDesc) (rest : List PaddleFileDesc) (temps : List String)
       (out : OutFS PaddlePayload),
       paddleRoute f.name = Route.unsupported →
       paddleProcessFile pid f temps out = (false, temps, out) ∧
       paddleMainLoop pid (f :: rest) temps out =
         ((paddleMainLoop pid rest temps out).1, (paddleMainLoop pid rest temps out).2.1 + 1,
          (paddleMainLoop pid rest temps out).2.2)) ∧
    (∀ (f : TessFileDesc) (rest : List TessFileDesc) (out : OutFS TessPayload),
       tessRoute f.name = Route.unsupported →
       tessProcessSingleFile f = none ∧
       tessProcessDirectory (f :: rest) out =
         ((tessProcessDirectory rest out).1, (tessProcessDirectory rest out).2.1 + 1,
          (tessProcessDirectory rest out).2.2)) := by
  constructor
  · intro pid f rest temps out h
    have hpf : paddleProcessFile pid f temps out = (false, temps, out) := by
      simp [paddleProcessFile, h]
    refine ⟨hpf, ?_⟩
    simp only [paddleMainLoop, hpf]
    rw [if_neg (by simp)]
  · intro f rest out h
    have hnone : tessProcessSingleFile f = none := by
      simp [tessProcessSingleFile, h]
    exact ⟨hnone, tessDirectory_skip f rest out hnone⟩

/-- An unsupported-extension entry for the Tesseract batch. -/
def c6TxtT : TessFileDesc := ⟨"readme.txt", Pyres.ok "x", Pyres.ok [], DumpOutcome.ok⟩

/-- C6 witness: the amended statements instantiated at concrete `.txt`
entries in both drivers. -/
theorem c6_witness :
    (paddleProcessFile 7 c6Txt [] [] = (false, [], []) ∧
     paddleMainLoop 7 (c6Txt :: []) [] [] =
       ((paddleMainLoop 7 [] [] []).1, (paddleMainLoop 7 [] [] []).2.1 + 1,
        (paddleMainLoop 7 [] [] []).2.2)) ∧
    (tessProcessSingleFile c6TxtT = none ∧
     tessProcessDirectory (c6TxtT :: []) [] =
       ((tessProcessDirectory [] []).1, (tessProcessDirectory [] []).2.1 + 1,
        (tessProcessDirectory [] []).2.2)) :=
  ⟨c6_amended.1 7 c6Txt [] [] [] (by decide), c6_amended.2 c6TxtT [] [] (by decide)⟩

end OCR
